import Mathlib

/-!
Verification of the Entervio smart job-search core against its specification.

The definitions below are a shallow embedding of the Python sources:
  * `app/services/ranking_service.py`   — `RankingService.compute_similarity_ranking`
  * `app/services/francetravail_service.py` — `FranceTravailService.search_jobs`
  * `app/services/smart_job_service.py` — `SmartJobService.smart_search`, `_resolve_location`
  * `app/services/dspy_job_service.py`  — `DSPyJobService.predict_params`

Numpy float arithmetic is modelled over `ℝ`; embedding vectors are `Fin d → ℝ`.
Network collaborators (geo lookups, the job-board search, the embedding model,
the reasoning model) are modelled as deterministic oracles: functions from the
request to the response, with fallible calls returning `Except`.
Python string slicing `s[:n]` is modelled as `String.mk (s.toList.take n)`,
which agrees with it character by character.
-/

namespace Entervio

/-! ## Data model -/

/-- A job posting dict as it flows through the engine.  `id` is `none` when the
`"id"` key is absent or `None`; `relevance_score`, `relevance_reasoning` and
`is_applied` are written by the engine. -/
structure Job where
  id : Option String := none
  intitule : String := ""
  description : String := ""
  relevance_score : ℤ := 0
  relevance_reasoning : String := ""
  is_applied : Bool := false
deriving DecidableEq

/-- Truthiness of an optional Python string: `None` and `""` are falsy. -/
def optStrTruthy : Option String → Bool
  | some s => s ≠ ""
  | none => false

/-- Truthiness of an optional Python bool. -/
def optBoolTruthy : Option Bool → Bool
  | some b => b
  | none => false

/-- Truthiness of an optional Python int: `None` and `0` are falsy. -/
def optNatTruthy : Option ℕ → Bool
  | some n => n ≠ 0
  | none => false

/-! ## Relevance ranker (`ranking_service.py`) -/

/-- An embedding vector of dimension `d` (numpy 1-D array). -/
abbrev Vec (d : ℕ) := Fin d → ℝ

/-- `np.dot` of two vectors of the same dimension. -/
def dotp {d : ℕ} (v w : Vec d) : ℝ := ∑ i, v i * w i

/-- `np.linalg.norm` of a vector. -/
noncomputable def vnorm {d : ℕ} (v : Vec d) : ℝ := Real.sqrt (dotp v v)

/-- Python string slicing `s[:n]`. -/
def pySlice (s : String) (n : ℕ) : String := String.mk (s.toList.take n)

/-- The pre-filter of `compute_similarity_ranking`: a job is kept for embedding
unless its title is empty and its truncated description has fewer than 10
characters (`if not title and len(desc) < 10: continue`). -/
def jobValid (j : Job) : Bool :=
  !(j.intitule == "" && decide ((j.description.toList.take 2000).length < 10))

/-- The text embedded for a job:
`f"Title: {title}\nDescription: {desc}"` with the description truncated to
2000 characters. -/
def jobText (j : Job) : String :=
  "Title: " ++ j.intitule ++ "\nDescription: " ++ String.mk (j.description.toList.take 2000)

/-- `valid_jobs`: the jobs that survive the pre-filter, in input order. -/
def validJobs (jobs : List Job) : List Job := jobs.filter jobValid

/-- `valid_jobs` after the 100-job batch cap (`job_texts[:100]`, `valid_jobs[:100]`). -/
def cappedJobs (jobs : List Job) : List Job := (validJobs jobs).take 100

/-- The vectorised similarity scores against one reference vector `v`:
`scores = np.zeros(n)` unless `‖v‖ > 0`, in which case each entry is
`np.divide(dot, ‖v‖·‖J‖, out=0, where=‖v‖>0 ∧ ‖J‖>0) * 100`. -/
noncomputable def simScores {d : ℕ} (jobVecs : List (Vec d)) (v : Vec d) : List ℝ :=
  if vnorm v > 0 then
    jobVecs.map (fun J =>
      if vnorm v > 0 ∧ vnorm J > 0 then dotp J v / (vnorm v * vnorm J) * 100 else 0)
  else
    jobVecs.map (fun _ => 0)

/-- `final_scores`: the weighted hybrid `0.7 * scores_q + 0.3 * scores_p` when a
query vector exists, otherwise `scores_p`. -/
noncomputable def finalScores {d : ℕ} (jobVecs : List (Vec d)) (pVec : Vec d)
    (qVec : Option (Vec d)) : List ℝ :=
  match qVec with
  | some q => List.zipWith (fun sq sp => 0.7 * sq + 0.3 * sp)
      (simScores jobVecs q) (simScores jobVecs pVec)
  | none => simScores jobVecs pVec

/-- Python `int()` applied to a float: truncation toward zero. -/
noncomputable def pyInt (x : ℝ) : ℤ := if 0 ≤ x then ⌊x⌋ else ⌈x⌉

/-- The reasoning string assigned from the score bucket, with the alignment
suffix when `final_score >= 60` (`query and final_score >= 60` picks the
search-alignment wording). -/
def bucketReasoning (queryTruthy : Bool) (s : ℤ) : String :=
  let base :=
    if s ≥ 85 then "Excellent match (Top 1%)"
    else if s ≥ 70 then "Très pertinent"
    else if s ≥ 50 then "Correspondance moyenne"
    else "Pertinence limitée"
  if queryTruthy && decide (s ≥ 60) then base ++ " • Aligné avec votre recherche"
  else if s ≥ 60 then base ++ " • Aligné avec votre profil"
  else base

/-- Writing `relevance_score` and `relevance_reasoning` into one job. -/
def assignScore (queryTruthy : Bool) (j : Job) (s : ℤ) : Job :=
  { j with relevance_score := s, relevance_reasoning := bucketReasoning queryTruthy s }

/-- The assignment loop pairing each valid job with its final score. -/
noncomputable def scoreJobs (queryTruthy : Bool) (pairs : List (Job × ℝ)) : List Job :=
  pairs.map (fun p => assignScore queryTruthy p.1 (pyInt p.2))

/-- `reranked_jobs.sort(key=relevance_score, reverse=True)`: stable descending sort. -/
def sortJobs (js : List Job) : List Job :=
  js.mergeSort (fun a b => decide (b.relevance_score ≤ a.relevance_score))

/-- The embedding collaborator: `has_gemini` plus one embedding function per
task type (`retrieval_query` for profile/query, `retrieval_document` for jobs). -/
structure RankOracle (d : ℕ) where
  hasGemini : Bool
  embedQ : String → Vec d
  embedD : String → Vec d

/-- Shallow embedding of `RankingService.compute_similarity_ranking`:
fast-fail on empty input or missing embedder, pre-filter, 100-job cap, embed,
masked cosine scores, hybrid weighting, `int()` truncation, bucket reasoning,
stable descending sort.  Jobs dropped by the pre-filter or the cap do not
reach the output; if no job survives the pre-filter the input is returned
unchanged. -/
noncomputable def compute_similarity_ranking {d : ℕ} (o : RankOracle d)
    (candidate_profile : String) (jobs : List Job) (query : Option String) : List Job :=
  if jobs = [] ∨ o.hasGemini = false then jobs
  else if validJobs jobs = [] then jobs
  else
    let capped := cappedJobs jobs
    let pVec := o.embedQ (pySlice candidate_profile 8000)
    let qVec := if optStrTruthy query then some (o.embedQ (query.getD "")) else none
    let jVecs := capped.map (fun j => o.embedD (jobText j))
    sortJobs (scoreJobs (optStrTruthy query) (capped.zip (finalScores jVecs pVec qVec)))

/-- The specification's clamped cosine: `cos = (J·P)/(‖J‖‖P‖)`, 0 when either
norm is 0.  Stated from the spec's words to compare with the code's masked
computation. -/
noncomputable def specCos {d : ℕ} (v w : Vec d) : ℝ :=
  if vnorm v > 0 ∧ vnorm w > 0 then dotp v w / (vnorm v * vnorm w) else 0

/-- The specification's final-score formula (before integer conversion):
`0.7·cos(J,Q)·100 + 0.3·cos(J,P)·100` with a query, `cos(J,P)·100` without. -/
noncomputable def specFinal {d : ℕ} (J P : Vec d) (qVec : Option (Vec d)) : ℝ :=
  match qVec with
  | some Q => 0.7 * (specCos J Q * 100) + 0.3 * (specCos J P * 100)
  | none => specCos J P * 100

/-- Erase the engine-written ranking fields, to compare job lists modulo
scoring. -/
def stripRank (j : Job) : Job := { j with relevance_score := 0, relevance_reasoning := "" }

/-! ## Job source client (`francetravail_service.py`) -/

/-- The keyword arguments of `FranceTravailService.search_jobs`. -/
structure SearchArgs where
  keywords : String
  location : Option String := none
  departement : Option String := none
  region : Option String := none
  distance : ℕ := 25
  contract_type : Option String := none
  is_full_time : Option Bool := none
  sort_by : Option String := none
  experience : Option String := none
  experience_exigence : Option String := none
  grand_domaine : Option String := none
  published_since : Option ℕ := none
deriving DecidableEq

/-- The query-parameter dict sent to the France Travail search endpoint.
`none` models an absent key. -/
structure FTRequest where
  motsCles : String
  range : String
  typeContrat : Option String := none
  tempsPlein : Option Bool := none
  sort : Option ℕ := none
  experience : Option String := none
  experienceExigence : Option String := none
  grandDomaine : Option String := none
  publieeDepuis : Option ℕ := none
  region : Option String := none
  departement : Option String := none
  commune : Option String := none
  distance : Option ℕ := none
deriving DecidableEq

/-- The advanced-filter section of `search_jobs`: each `if kwargs.get(...)`
guard adds one key. -/
def buildFilters (a : SearchArgs) : FTRequest :=
  let p : FTRequest := { motsCles := a.keywords, range := "0-49" }
  let p := if optStrTruthy a.contract_type then { p with typeContrat := a.contract_type } else p
  let p := if optBoolTruthy a.is_full_time then { p with tempsPlein := a.is_full_time } else p
  let p := if a.sort_by = some "date" then { p with sort := some 1 } else p
  let p := if optStrTruthy a.experience then { p with experience := a.experience } else p
  let p := if optStrTruthy a.experience_exigence then { p with experienceExigence := a.experience_exigence } else p
  let p := if optStrTruthy a.grand_domaine then { p with grandDomaine := a.grand_domaine } else p
  let p := if optNatTruthy a.published_since then { p with publieeDepuis := a.published_since } else p
  p

/-- The geographic section of `search_jobs`: explicit region/departement
kwargs, then the commune-code `location` with the Paris special case
(`location == "75056" or location == "75"` rewrites to `departement = "75"`). -/
def applyGeoArgs (q : FTRequest) (a : SearchArgs) : FTRequest :=
  let p := if optStrTruthy a.region then { q with region := a.region } else q
  let p := if optStrTruthy a.departement then { p with departement := a.departement } else p
  match a.location with
  | some loc =>
      if loc = "" then p
      else if loc = "75056" ∨ loc = "75" then { p with departement := some "75" }
      else { p with commune := some loc, distance := some a.distance }
  | none => p

/-- The full query-parameter dict built by `search_jobs` before the HTTP call. -/
def search_jobs_params (a : SearchArgs) : FTRequest := applyGeoArgs (buildFilters a) a

/-! ## Query planner (`dspy_job_service.py` and the flatten step) -/

/-- A `FranceTravailParams` search variation as produced by the planner. -/
structure Variation where
  keywords : String
  location_raw : Option String := none
  location_type : String := "unknown"
  experience_level : Option String := none
  experience_exigence : Option String := none
  contract_type : Option String := none
  is_full_time : Option Bool := none
deriving DecidableEq

/-- A Python value the reasoning collaborator may emit for `result.variations`:
a variation object or an arbitrarily nested list of such values. -/
inductive PyVal where
  | item : Variation → PyVal
  | list : List PyVal → PyVal

/-- Does this Python value satisfy `isinstance(v, list)`? -/
def PyVal.isList : PyVal → Bool
  | .list _ => true
  | .item _ => false

/-- Is this Python value a plain (non-list) variation object? -/
def PyVal.isItem : PyVal → Bool
  | .item _ => true
  | .list _ => false

/-- `getattr(v, "keywords", default)`-style access: lists have no attributes. -/
def pvKeywords : PyVal → String
  | .item p => p.keywords
  | .list _ => ""

/-- `getattr(params, "location_raw", None)`. -/
def pvLocationRaw : PyVal → Option String
  | .item p => p.location_raw
  | .list _ => none

/-- `getattr(params, "location_type", "unknown")`. -/
def pvLocationType : PyVal → String
  | .item p => p.location_type
  | .list _ => "unknown"

/-- `getattr(params, "experience_level", None)`. -/
def pvExperienceLevel : PyVal → Option String
  | .item p => p.experience_level
  | .list _ => none

/-- `getattr(params, "experience_exigence", None)`. -/
def pvExperienceExigence : PyVal → Option String
  | .item p => p.experience_exigence
  | .list _ => none

/-- `getattr(params, "contract_type", None)`. -/
def pvContractType : PyVal → Option String
  | .item p => p.contract_type
  | .list _ => none

/-- `getattr(params, "is_full_time", None)`. -/
def pvIsFullTime : PyVal → Option Bool
  | .item p => p.is_full_time
  | .list _ => none

/-- The fallback `FranceTravailParams` built in `predict_params`' `except`
branch: keywords = the user query, everything else null/unknown. -/
def fallbackVariation (q : String) : Variation :=
  { keywords := q, location_raw := none, location_type := "unknown",
    experience_level := none, experience_exigence := none,
    contract_type := none, is_full_time := none }

/-- Shallow embedding of `DSPyJobService.predict_params`.  The argument is the
outcome of the DSPy predictor call: `.error` when it raises, `.ok v` with the
emitted `result.variations` value otherwise.  A non-list value makes the
`len(variations)` log line raise inside the `try`, so it also lands in the
fallback branch. -/
def predict_params (predictorResult : Except String PyVal) (query : String) : PyVal :=
  match predictorResult with
  | .ok (.list vs) => .list vs
  | .ok (.item _) => .list [.item (fallbackVariation query)]
  | .error _ => .list [.item (fallbackVariation query)]

/-- The flatten step of `smart_search`: iterate the raw value, `extend` for
list elements, `append` otherwise; a non-list raw value is wrapped in a
singleton.  Note only one nesting level is unwrapped. -/
def flattenVariations (raw : PyVal) : List PyVal :=
  match raw with
  | .list vs =>
      vs.foldl (fun acc v =>
        match v with
        | .list inner => acc ++ inner
        | .item x => acc ++ [.item x]) []
  | .item x => [.item x]

/-- Every element of a list value is a plain item (nesting depth ≤ 2 overall). -/
def flatListOfItems : PyVal → Bool
  | .item _ => true
  | .list vs => vs.all PyVal.isItem

/-- The emitted value has nesting depth at most 2: either an item, or a list
whose elements are items or flat lists of items. -/
def depthLE2 : PyVal → Bool
  | .item _ => true
  | .list vs => vs.all flatListOfItems

/-! ## Location resolver (`SmartJobService._resolve_location`) -/

/-- One candidate record returned by a geo lookup; `departement` carries the
parent department code when the record has one. -/
structure GeoRecord where
  nom : String := ""
  code : String
  departement : Option String := none
deriving DecidableEq

/-- The `ft_location_params` dict produced by `_resolve_location`: at most one
of the three keys is present. -/
structure LocParams where
  region : Option String := none
  departement : Option String := none
  location : Option String := none
deriving DecidableEq

/-- Shallow embedding of `_resolve_location`, taking the three lookup results
for the raw string.  Region, then department, then commune, each attempted
only when the hint allows it; the head of the first non-empty attempted list
wins; a resolved commune also yields its parent department code; otherwise
both results are empty. -/
def resolve_location (regions departments cities : List GeoRecord) (hint : String) :
    LocParams × Option String :=
  match (if hint = "region" ∨ hint = "unknown" then regions else []) with
  | r :: _ => ({ region := some r.code }, none)
  | [] =>
    match (if hint = "departement" ∨ hint = "unknown" then departments else []) with
    | d :: _ => ({ departement := some d.code }, none)
    | [] =>
      match (if hint = "commune" ∨ hint = "unknown" then cities else []) with
      | c :: _ => ({ location := some c.code }, c.departement)
      | [] => ({}, none)

/-- The geo-lookup collaborator: lookup results per raw place string. -/
structure GeoOracle where
  regions : String → List GeoRecord
  departments : String → List GeoRecord
  cities : String → List GeoRecord

/-! ## Search orchestrator (`SmartJobService.smart_search`) -/

/-- Location resolution for one variation: only when `location_raw` is truthy. -/
def variationLocation (geo : GeoOracle) (v : PyVal) : LocParams × Option String :=
  match pvLocationRaw v with
  | some raw =>
      if raw = "" then ({}, none)
      else resolve_location (geo.regions raw) (geo.departments raw) (geo.cities raw)
        (pvLocationType v)
  | none => ({}, none)

/-- The `search_jobs` call arguments for one variation and one location dict. -/
def variationArgs (v : PyVal) (lp : LocParams) : SearchArgs :=
  { keywords := pvKeywords v,
    location := lp.location,
    departement := lp.departement,
    region := lp.region,
    experience := pvExperienceLevel v,
    experience_exigence := pvExperienceExigence v,
    contract_type := pvContractType v,
    is_full_time := pvIsFullTime v }

/-- The search tasks submitted for one variation: the primary search, plus the
department-scoped cascade search when a parent department was captured and the
primary is not already department-scoped. -/
def variationTasks (geo : GeoOracle) (v : PyVal) : List SearchArgs :=
  match variationLocation geo v with
  | (lp, some dep) =>
      if lp.departement = none then
        [variationArgs v lp, variationArgs v { departement := some dep }]
      else [variationArgs v lp]
  | (lp, none) => [variationArgs v lp]

/-- All search tasks of one `smart_search` call, in submission order. -/
def smartTasks (geo : GeoOracle) (variations : List PyVal) : List SearchArgs :=
  (variations.map (variationTasks geo)).flatten

/-- One merge-loop step: append the job and record its id when the id is
truthy and unseen (`if job_id and job_id not in seen_ids`). -/
def merge_step (st : List Job × List String) (job : Job) : List Job × List String :=
  match job.id with
  | some s => if s ≠ "" ∧ s ∉ st.2 then (st.1 ++ [job], st.2 ++ [s]) else st
  | none => st

/-- Merging one task outcome: failed tasks contribute nothing. -/
def mergeOuter (st : List Job × List String) (r : Except String (List Job)) :
    List Job × List String :=
  match r with
  | .ok js => js.foldl merge_step st
  | .error _ => st

/-- The merge-and-deduplicate loop over all task outcomes in submission order:
`(all_jobs, seen_ids)`. -/
def merge_results (rs : List (Except String (List Job))) : List Job × List String :=
  rs.foldl mergeOuter ([], [])

/-- The concatenated successful results in submission order. -/
def successStream (rs : List (Except String (List Job))) : List Job :=
  (rs.filterMap (fun r =>
    match r with
    | .ok js => some js
    | .error _ => none)).flatten

/-- The ids of a job list, in order, skipping absent ids. -/
def jobIds (js : List Job) : List String := js.filterMap Job.id

/-- The specification's merge rule, stated from its words (§4.4 Merge):
walk the successful results in order and keep the first occurrence of each
truthy id, discarding every later posting with a seen id. -/
def specDedupFirst : List Job → List String → List Job
  | [], _ => []
  | j :: rest, seen =>
      match j.id with
      | some s =>
          if s ≠ "" ∧ s ∉ seen then j :: specDedupFirst rest (s :: seen)
          else specDedupFirst rest seen
      | none => specDedupFirst rest seen

/-- All collaborators of one `smart_search` call. -/
structure SmartOracle (d : ℕ) where
  predict : Except String PyVal
  geo : GeoOracle
  search : SearchArgs → Except String (List Job)
  rank : RankOracle d

/-- `user_query = query or "Find jobs matching my profile"`. -/
def smartUserQuery (query : Option String) : String :=
  match query with
  | some q => if q = "" then "Find jobs matching my profile" else q
  | none => "Find jobs matching my profile"

/-- The flat variation list `smart_search` iterates over. -/
def smartVariations {d : ℕ} (o : SmartOracle d) (uq : String) : List PyVal :=
  flattenVariations (predict_params o.predict uq)

/-- The merged, deduplicated `all_jobs` list of one call. -/
def smartMerged {d : ℕ} (o : SmartOracle d) (uq : String) : List Job :=
  (merge_results ((smartTasks o.geo (smartVariations o uq)).map o.search)).1

/-- The keywords of the national fallback:
`getattr(variations[0], "keywords", user_query) if variations else user_query`. -/
def fallbackKeywords (variations : List PyVal) (uq : String) : String :=
  match variations with
  | [] => uq
  | .item p :: _ => p.keywords
  | .list _ :: _ => uq

/-- The unconstrained national-fallback search call: keywords only. -/
def nationalArgs (kw : String) : SearchArgs := { keywords := kw }

/-- The job list entering the reranking step: the merged list, or when it is
empty the national fallback's result; `none` encodes the `return []` taken
when the fallback itself raises. -/
def smartFound {d : ℕ} (o : SmartOracle d) (uq : String) : Option (List Job) :=
  if smartMerged o uq = [] then
    match o.search (nationalArgs (fallbackKeywords (smartVariations o uq) uq)) with
    | .ok js => some js
    | .error _ => none
  else some (smartMerged o uq)

/-- Every job-board search issued by one call, in order: the per-variation
primary/cascade batch, then the single national fallback when the merge came
back empty. -/
def smartIssuedSearches {d : ℕ} (o : SmartOracle d) (uq : String) : List SearchArgs :=
  smartTasks o.geo (smartVariations o uq) ++
    (if smartMerged o uq = [] then
      [nationalArgs (fallbackKeywords (smartVariations o uq) uq)]
    else [])

/-- The applied-status annotation: `job.get("id") in applied_job_ids`. -/
def markApplied (applied : List String) (js : List Job) : List Job :=
  js.map (fun j =>
    { j with is_applied := match j.id with
        | some s => decide (s ∈ applied)
        | none => false })

/-- Shallow embedding of `SmartJobService.smart_search`: plan, flatten,
resolve, fan out, merge, national fallback, rerank, annotate. -/
noncomputable def smart_search {d : ℕ} (o : SmartOracle d) (profileSummary : String)
    (query : Option String) (applied : List String) : List Job :=
  match smartFound o (smartUserQuery query) with
  | none => []
  | some found =>
      markApplied applied (compute_similarity_ranking o.rank profileSummary found query)

/-! ## Concrete fixtures for witnesses and counterexamples -/

/-- The all-ones vector in dimension 1. -/
def vecOne1 : Vec 1 := fun _ => 1

/-- The all-minus-ones vector in dimension 1. -/
def vecNeg1 : Vec 1 := fun _ => -1

/-- The vector (3, 4), of norm 5. -/
def vec34 : Vec 2 := ![3, 4]

/-- The vector (7, 24), of norm 25. -/
def vec724 : Vec 2 := ![7, 24]

/-- An embedder sending every text to the all-ones vector. -/
def oraclePos : RankOracle 1 :=
  { hasGemini := true, embedQ := fun _ => vecOne1, embedD := fun _ => vecOne1 }

/-- An embedder whose profile embedding is opposite to every job embedding. -/
def oracleNeg : RankOracle 1 :=
  { hasGemini := true, embedQ := fun _ => vecNeg1, embedD := fun _ => vecOne1 }

/-- An embedder placing jobs at (3,4) and the profile at (7,24):
cosine 117/125, so a raw score of 93.6. -/
def oracle345 : RankOracle 2 :=
  { hasGemini := true, embedQ := fun _ => vec724, embedD := fun _ => vec34 }

/-- A job that passes the embedding pre-filter. -/
def jobDev : Job := { id := some "A", intitule := "Dev", description := "" }

/-- A job with empty title and description: excluded from embedding. -/
def jobEmptyText : Job := { id := some "B" }

/-- A job whose `"id"` key is absent. -/
def jobNoId : Job := { intitule := "Ghost", description := "spooky role" }

/-- A geo oracle that resolves nothing. -/
def geoEmpty : GeoOracle :=
  { regions := fun _ => [], departments := fun _ => [], cities := fun _ => [] }

/-- A job-board oracle returning an empty page for every request. -/
def searchEmptyOk : SearchArgs → Except String (List Job) := fun _ => .ok []

/-- A job-board oracle returning one id-less posting for every request. -/
def searchNoId : SearchArgs → Except String (List Job) := fun _ => .ok [jobNoId]

/-- An orchestrator run whose planner raised and whose searches all come back
empty. -/
def smartOracleEmpty : SmartOracle 1 :=
  { predict := .error "llm down", geo := geoEmpty, search := searchEmptyOk, rank := oraclePos }

/-- An orchestrator run whose planner raised and whose searches return only an
id-less posting. -/
def smartOracleNoId : SmartOracle 1 :=
  { predict := .error "llm down", geo := geoEmpty, search := searchNoId, rank := oraclePos }

/-- The commune record of Paris with its parent department. -/
def recParis : GeoRecord := { nom := "Paris", code := "75056", departement := some "75" }

/-- A department record for the Rhône. -/
def recRhone : GeoRecord := { nom := "Rhone", code := "69" }

/-- A region record. -/
def recIdf : GeoRecord := { nom := "Ile-de-France", code := "11" }

/-- A variation used to build nested planner outputs. -/
def varPython : Variation := { keywords := "python" }

/-- Sample task outcomes exercising merge deduplication: a duplicate id across
tasks, a failed task, and an id-less posting. -/
def sampleResults : List (Except String (List Job)) :=
  [.ok [jobNoId, jobDev], .error "HTTP 500", .ok [jobDev, jobEmptyText]]

/-! ## Lemmas about the relevance ranker -/

theorem vnorm_nonneg {d : ℕ} (v : Vec d) : 0 ≤ vnorm v := Real.sqrt_nonneg _

/-- Cauchy–Schwarz for the embedded dot product and norms. -/
theorem abs_dotp_le {d : ℕ} (v w : Vec d) : |dotp v w| ≤ vnorm v * vnorm w := by
  have h1 : dotp v w ≤ vnorm v * vnorm w := by
    have h := Real.sum_mul_le_sqrt_mul_sqrt Finset.univ v w
    simp only [pow_two] at h
    simpa [dotp, vnorm] using h
  have h2 : -(vnorm v * vnorm w) ≤ dotp v w := by
    have h := Real.sum_mul_le_sqrt_mul_sqrt Finset.univ v (fun i => -(w i))
    have e1 : (∑ i, v i * -(w i) : ℝ) = -(∑ i, v i * w i) := by
      rw [← Finset.sum_neg_distrib]
      exact Finset.sum_congr rfl (fun i _ => by ring)
    have e2 : (∑ i, (-(w i)) ^ 2 : ℝ) = dotp w w := by
      unfold dotp
      exact Finset.sum_congr rfl (fun i _ => by ring)
    have e3 : (∑ i, (v i) ^ 2 : ℝ) = dotp v v := by
      unfold dotp
      exact Finset.sum_congr rfl (fun i _ => by ring)
    rw [e1, e2, e3] at h
    unfold vnorm
    unfold dotp at h ⊢
    linarith
  exact abs_le.mpr ⟨by linarith, h1⟩

/-- The clamped cosine lies in [-1, 1]. -/
theorem abs_specCos_le_one {d : ℕ} (v w : Vec d) : |specCos v w| ≤ 1 := by
  unfold specCos
  split_ifs with h
  · obtain ⟨hv, hw⟩ := h
    rw [abs_div, abs_of_pos (mul_pos hv hw)]
    exact div_le_one_of_le₀ (abs_dotp_le v w) (le_of_lt (mul_pos hv hw))
  · simp

/-- The code's masked per-job similarity scores agree with the spec's clamped
cosine times 100, job by job. -/
theorem simScores_eq {d : ℕ} (jobVecs : List (Vec d)) (v : Vec d) :
    simScores jobVecs v = jobVecs.map (fun J => specCos J v * 100) := by
  unfold simScores
  split_ifs with h
  · refine List.map_congr_left (fun J _ => ?_)
    unfold specCos
    by_cases hJ : vnorm J > 0
    · rw [if_pos ⟨h, hJ⟩, if_pos ⟨hJ, h⟩, mul_comm (vnorm J) (vnorm v)]
    · rw [if_neg (by tauto), if_neg (by tauto), zero_mul]
  · refine List.map_congr_left (fun J _ => ?_)
    unfold specCos
    rw [if_neg (by tauto), zero_mul]

/-- Each per-job score against one reference vector lies in [-100, 100]. -/
theorem simScores_mem_bounds {d : ℕ} (jobVecs : List (Vec d)) (v : Vec d) :
    ∀ x ∈ simScores jobVecs v, -100 ≤ x ∧ x ≤ 100 := by
  intro x hx
  rw [simScores_eq] at hx
  obtain ⟨J, _, rfl⟩ := List.mem_map.mp hx
  have h := abs_le.mp (abs_specCos_le_one J v)
  constructor <;> nlinarith [h.1, h.2]

/-- The hybrid combination of two lists of scores in [-100, 100] stays there. -/
theorem zipWith_hybrid_bounds : ∀ (qs ps : List ℝ),
    (∀ a ∈ qs, -100 ≤ a ∧ a ≤ 100) → (∀ b ∈ ps, -100 ≤ b ∧ b ≤ 100) →
    ∀ x ∈ List.zipWith (fun sq sp => 0.7 * sq + 0.3 * sp) qs ps, -100 ≤ x ∧ x ≤ 100 := by
  intro qs
  induction qs with
  | nil => intro ps _ _ x hx; simp at hx
  | cons a qs ih =>
      intro ps hq hp x hx
      cases ps with
      | nil => simp at hx
      | cons b ps =>
          rw [List.zipWith_cons_cons] at hx
          rcases List.mem_cons.mp hx with h | h
          · subst h
            have ha := hq a (by simp)
            have hb := hp b (by simp)
            constructor <;> nlinarith [ha.1, ha.2, hb.1, hb.2]
          · exact ih ps (fun y hy => hq y (by simp [hy])) (fun y hy => hp y (by simp [hy])) x h

/-- Every final (pre-truncation) score lies in [-100, 100]. -/
theorem finalScores_mem_bounds {d : ℕ} (jobVecs : List (Vec d)) (pVec : Vec d)
    (qVec : Option (Vec d)) : ∀ x ∈ finalScores jobVecs pVec qVec, -100 ≤ x ∧ x ≤ 100 := by
  intro x hx
  cases qVec with
  | none => exact simScores_mem_bounds jobVecs pVec x hx
  | some q =>
      exact zipWith_hybrid_bounds _ _ (simScores_mem_bounds jobVecs q)
        (simScores_mem_bounds jobVecs pVec) x hx

/-- Python `int()` truncation of a real in [-100, 100] lands in [-100, 100]. -/
theorem pyInt_bounds {x : ℝ} (h1 : -100 ≤ x) (h2 : x ≤ 100) :
    -100 ≤ pyInt x ∧ pyInt x ≤ 100 := by
  unfold pyInt
  split_ifs with h
  · constructor
    · have h0 : (0 : ℤ) ≤ ⌊x⌋ := Int.le_floor.mpr (by exact_mod_cast h)
      linarith
    · have hf : (⌊x⌋ : ℝ) ≤ 100 := le_trans (Int.floor_le x) h2
      exact_mod_cast hf
  · constructor
    · have hc : (-100 : ℝ) ≤ (⌈x⌉ : ℝ) := le_trans h1 (Int.le_ceil x)
      exact_mod_cast hc
    · have h0 : ⌈x⌉ ≤ (0 : ℤ) := Int.ceil_le.mpr (by exact_mod_cast le_of_lt (lt_of_not_le h))
      linarith

/-- Lengths: `simScores` is elementwise. -/
theorem simScores_length {d : ℕ} (jobVecs : List (Vec d)) (v : Vec d) :
    (simScores jobVecs v).length = jobVecs.length := by
  unfold simScores
  split_ifs <;> simp

/-- Lengths: `final_scores` pairs up with the capped job list. -/
theorem finalScores_length {d : ℕ} (jobVecs : List (Vec d)) (pVec : Vec d)
    (qVec : Option (Vec d)) : (finalScores jobVecs pVec qVec).length = jobVecs.length := by
  cases qVec <;> simp [finalScores, simScores_length]

/-- `finalScores` on a single job vector is the spec's hybrid formula. -/
theorem finalScores_single {d : ℕ} (J pVec : Vec d) (qVec : Option (Vec d)) :
    finalScores [J] pVec qVec = [specFinal J pVec qVec] := by
  cases qVec <;> simp [finalScores, simScores_eq, specFinal]

/-- Reranking the empty list returns it unchanged. -/
theorem ranking_nil {d : ℕ} (o : RankOracle d) (p : String) (q : Option String) :
    compute_similarity_ranking o p [] q = [] := by
  simp [compute_similarity_ranking]

/-- Full characterisation of a single-job reranking: the one job comes back
with `int()` of the spec's hybrid formula as its score. -/
theorem ranking_singleton_score {d : ℕ} (o : RankOracle d) (profile : String)
    (query : Option String) (j : Job) (hg : o.hasGemini = true) (hv : jobValid j = true) :
    (compute_similarity_ranking o profile [j] query).map Job.relevance_score =
      [pyInt (specFinal (o.embedD (jobText j)) (o.embedQ (pySlice profile 8000))
        (if optStrTruthy query then some (o.embedQ (query.getD "")) else none))] := by
  have hvj : validJobs [j] = [j] := by simp [validJobs, hv]
  have hcap : cappedJobs [j] = [j] := by simp [cappedJobs, hvj]
  unfold compute_similarity_ranking
  rw [if_neg (by simp [hg]), if_neg (by simp [hvj])]
  simp only [hcap, List.map_cons, List.map_nil, finalScores_single, List.zip_cons_cons,
    List.zip_nil_right]
  simp [scoreJobs, sortJobs, List.mergeSort_singleton, assignScore]

/-! ## Concrete score evaluations -/

theorem vnorm_vecOne1 : vnorm vecOne1 = 1 := by
  simp [vnorm, dotp, vecOne1, Fin.sum_univ_one]

theorem vnorm_vecNeg1 : vnorm vecNeg1 = 1 := by
  simp [vnorm, dotp, vecNeg1, Fin.sum_univ_one]

theorem dotp_one_neg : dotp vecOne1 vecNeg1 = -1 := by
  simp [dotp, vecOne1, vecNeg1, Fin.sum_univ_one]

theorem specCos_one_neg : specCos vecOne1 vecNeg1 = -1 := by
  unfold specCos
  rw [vnorm_vecOne1, vnorm_vecNeg1, dotp_one_neg]
  norm_num

theorem vnorm_vec34 : vnorm vec34 = 5 := by
  unfold vnorm
  rw [show dotp vec34 vec34 = 25 by
    simp [dotp, vec34, Fin.sum_univ_two]; norm_num]
  rw [show (25 : ℝ) = 5 ^ 2 by norm_num, Real.sqrt_sq (by norm_num)]

theorem vnorm_vec724 : vnorm vec724 = 25 := by
  unfold vnorm
  rw [show dotp vec724 vec724 = 625 by
    simp [dotp, vec724, Fin.sum_univ_two]; norm_num]
  rw [show (625 : ℝ) = 25 ^ 2 by norm_num, Real.sqrt_sq (by norm_num)]

theorem dotp_34_724 : dotp vec34 vec724 = 117 := by
  simp [dotp, vec34, vec724, Fin.sum_univ_two]; norm_num

theorem specCos_34_724 : specCos vec34 vec724 = 117 / 125 := by
  unfold specCos
  rw [vnorm_vec34, vnorm_vec724, dotp_34_724]
  rw [if_pos (by norm_num : (5 : ℝ) > 0 ∧ (25 : ℝ) > 0)]
  norm_num

theorem pyInt_neg100 : pyInt (-100 : ℝ) = -100 := by
  unfold pyInt
  rw [if_neg (by norm_num)]
  norm_num [Int.ceil_eq_iff]

theorem pyInt_117_125 : pyInt ((117 : ℝ) / 125 * 100) = 93 := by
  unfold pyInt
  rw [if_pos (by norm_num)]
  rw [Int.floor_eq_iff]
  norm_num

/-! ## Claims C1–C3 -/

/-- C1 (amended): every `relevance_score` assigned by
`compute_similarity_ranking` is an integer in the closed interval
[-100, 100] — not [0, 100]: a negative cosine yields a negative score. -/
theorem relevance_score_bounds {d : ℕ} (o : RankOracle d) (profile : String)
    (jobs : List Job) (query : Option String) (hg : o.hasGemini = true)
    (hjobs : jobs ≠ []) (hvalid : validJobs jobs ≠ []) :
    ∀ j ∈ compute_similarity_ranking o profile jobs query,
      -100 ≤ j.relevance_score ∧ j.relevance_score ≤ 100 := by
  intro j hj
  unfold compute_similarity_ranking at hj
  rw [if_neg (by simp [hg, hjobs]), if_neg hvalid] at hj
  unfold sortJobs at hj
  have hj2 := (List.mergeSort_perm _ _).mem_iff.mp hj
  unfold scoreJobs at hj2
  obtain ⟨p, hp, rfl⟩ := List.mem_map.mp hj2
  obtain ⟨jb, s⟩ := p
  have hs := (List.of_mem_zip hp).2
  have hb := finalScores_mem_bounds _ _ _ s hs
  simpa [assignScore] using pyInt_bounds hb.1 hb.2

/-- Witness for C1: a concrete run where the theorem applies. -/
theorem relevance_score_bounds_witness :
    oraclePos.hasGemini = true ∧ ([jobDev] : List Job) ≠ [] ∧ validJobs [jobDev] ≠ [] ∧
    ∀ j ∈ compute_similarity_ranking oraclePos "profile" [jobDev] none,
      -100 ≤ j.relevance_score ∧ j.relevance_score ≤ 100 :=
  ⟨rfl, by decide, by decide,
    relevance_score_bounds oraclePos "profile" [jobDev] none rfl (by decide) (by decide)⟩

/-- Counterexample to C1 as stated: with a job vector opposite to the profile
vector the cosine is -1 and the assigned `relevance_score` is -100, outside
[0, 100]. -/
theorem relevance_score_negative_ce :
    (compute_similarity_ranking oracleNeg "profile" [jobDev] none).map Job.relevance_score
      = [-100] := by
  rw [ranking_singleton_score oracleNeg "profile" none jobDev rfl (by decide)]
  have h1 : specFinal vecOne1 vecNeg1 none = -100 := by
    simp [specFinal, specCos_one_neg]
  simp [oracleNeg, optStrTruthy, h1, pyInt_neg100]

/-- C2 (amended): for fixed job, profile and query vectors the final score is
Python `int()` truncation toward zero — not `round` — of the spec's hybrid
formula, with the cosine clamped to 0 whenever either norm is 0. -/
theorem final_score_hybrid_trunc {d : ℕ} (o : RankOracle d) (profile : String)
    (query : Option String) (j : Job) (hg : o.hasGemini = true) (hv : jobValid j = true) :
    (compute_similarity_ranking o profile [j] query).map Job.relevance_score =
      [pyInt (specFinal (o.embedD (jobText j)) (o.embedQ (pySlice profile 8000))
        (if optStrTruthy query then some (o.embedQ (query.getD "")) else none))] :=
  ranking_singleton_score o profile query j hg hv

/-- Witness for C2: the truncation law applied to a concrete hybrid run. -/
theorem final_score_hybrid_trunc_witness :
    jobValid jobDev = true ∧
    (compute_similarity_ranking oraclePos "p" [jobDev] (some "python")).map
        Job.relevance_score =
      [pyInt (specFinal (oraclePos.embedD (jobText jobDev))
        (oraclePos.embedQ (pySlice "p" 8000))
        (if optStrTruthy (some "python") then some (oraclePos.embedQ ((some "python").getD ""))
          else none))] :=
  ⟨by decide, final_score_hybrid_trunc oraclePos "p" (some "python") jobDev rfl (by decide)⟩

/-- Counterexample to C2 as stated: with job vector (3,4) and profile vector
(7,24) the raw score is 93.6; the code assigns 93 (truncation) while the
claimed `round` gives 94. -/
theorem final_score_truncation_ce :
    (compute_similarity_ranking oracle345 "p" [jobDev] none).map Job.relevance_score = [93] ∧
    round ((117 : ℝ) / 125 * 100) = 94 := by
  constructor
  · rw [ranking_singleton_score oracle345 "p" none jobDev rfl (by decide)]
    have h1 : specFinal vec34 vec724 none = (117 : ℝ) / 125 * 100 := by
      simp [specFinal, specCos_34_724]
    simp [oracle345, optStrTruthy, h1, pyInt_117_125]
  · rw [round_eq, Int.floor_eq_iff]
    norm_num

/-- C3 (amended): jobs excluded from embedding (empty title with a truncated
description under 10 characters, or beyond the 100-job cap) are omitted from
the ranked output, which consists exactly of the embedded jobs modulo the
engine-written ranking fields; only when no job at all can be embedded is the
input returned unchanged.  No excluded posting is kept with score 0. -/
theorem excluded_jobs_omitted {d : ℕ} (o : RankOracle d) (profile : String)
    (query : Option String) (jobs : List Job) (hg : o.hasGemini = true) :
    (validJobs jobs = [] → compute_similarity_ranking o profile jobs query = jobs) ∧
    (validJobs jobs ≠ [] →
      ((compute_similarity_ranking o profile jobs query).map stripRank).Perm
        ((cappedJobs jobs).map stripRank)) := by
  constructor
  · intro hv
    unfold compute_similarity_ranking
    by_cases hj : jobs = []
    · rw [if_pos (Or.inl hj)]
    · rw [if_neg (by simp [hj, hg]), if_pos hv]
  · intro hv
    have hj : jobs ≠ [] := by
      intro h
      subst h
      exact hv rfl
    unfold compute_similarity_ranking
    rw [if_neg (by simp [hj, hg]), if_neg hv]
    have hlen : (cappedJobs jobs).length ≤
        (finalScores ((cappedJobs jobs).map (fun j => o.embedD (jobText j)))
          (o.embedQ (pySlice profile 8000))
          (if optStrTruthy query then some (o.embedQ (query.getD "")) else none)).length := by
      rw [finalScores_length, List.length_map]
    have hmapeq : (scoreJobs (optStrTruthy query)
        ((cappedJobs jobs).zip
          (finalScores ((cappedJobs jobs).map (fun j => o.embedD (jobText j)))
            (o.embedQ (pySlice profile 8000))
            (if optStrTruthy query then some (o.embedQ (query.getD "")) else none)))).map
          stripRank = (cappedJobs jobs).map stripRank := by
      unfold scoreJobs
      rw [List.map_map]
      rw [show (stripRank ∘ fun p : Job × ℝ =>
          assignScore (optStrTruthy query) p.1 (pyInt p.2)) = stripRank ∘ Prod.fst from rfl]
      rw [← List.map_map, List.map_fst_zip _ _ hlen]
    have hperm := (List.mergeSort_perm (scoreJobs (optStrTruthy query)
        ((cappedJobs jobs).zip
          (finalScores ((cappedJobs jobs).map (fun j => o.embedD (jobText j)))
            (o.embedQ (pySlice profile 8000))
            (if optStrTruthy query then some (o.embedQ (query.getD "")) else none))))
        (fun a b => decide (b.relevance_score ≤ a.relevance_score))).map stripRank
    rw [hmapeq] at hperm
    exact hperm

/-- Witness for C3: a concrete run with one embeddable and one excluded job. -/
theorem excluded_jobs_omitted_witness :
    validJobs [jobDev, jobEmptyText] ≠ [] ∧
    ((compute_similarity_ranking oraclePos "p" [jobDev, jobEmptyText] none).map
        stripRank).Perm ((cappedJobs [jobDev, jobEmptyText]).map stripRank) :=
  ⟨by decide,
    (excluded_jobs_omitted oraclePos "p" none [jobDev, jobEmptyText] rfl).2 (by decide)⟩

/-- Counterexample to C3 as stated: the excluded job `jobEmptyText` (empty
title, empty description) does not appear in the returned list at all, instead
of appearing with score 0 and reasoning "not ranked". -/
theorem excluded_jobs_dropped_ce :
    (compute_similarity_ranking oraclePos "p" [jobDev, jobEmptyText] none).map Job.id
      = [some "A"] := by
  have hvj : validJobs [jobDev, jobEmptyText] = [jobDev] := by decide
  have hcap : cappedJobs [jobDev, jobEmptyText] = [jobDev] := by
    simp [cappedJobs, hvj]
  unfold compute_similarity_ranking
  rw [if_neg (by decide), if_neg (by simp [hvj])]
  simp only [hcap, List.map_cons, List.map_nil, finalScores_single, List.zip_cons_cons,
    List.zip_nil_right]
  simp [scoreJobs, sortJobs, List.mergeSort_singleton, assignScore, jobDev]

/-! ## Lemmas about the job source client -/

theorem buildFilters_commune (a : SearchArgs) : (buildFilters a).commune = none := by
  unfold buildFilters
  split_ifs <;> rfl

theorem buildFilters_distance (a : SearchArgs) : (buildFilters a).distance = none := by
  unfold buildFilters
  split_ifs <;> rfl

/-! ## Claim C4 -/

/-- C4 (amended): `search_jobs` rewrites the commune-code `location` to the
department constraint `"75"` (with no commune or radius parameter) exactly
when it equals `"75056"` or equals `"75"`; every other non-empty location
string — including other codes starting with `"75"` and other 2-digit codes —
is sent as `commune` plus the radius (default 25, overridable). -/
theorem location_rule_exact (a : SearchArgs) (loc : String)
    (hloc : a.location = some loc) (hne : loc ≠ "") :
    ((loc = "75056" ∨ loc = "75") →
      (search_jobs_params a).departement = some "75" ∧
      (search_jobs_params a).commune = none ∧
      (search_jobs_params a).distance = none) ∧
    (¬(loc = "75056" ∨ loc = "75") →
      (search_jobs_params a).commune = some loc ∧
      (search_jobs_params a).distance = some a.distance) := by
  constructor
  · intro h75
    unfold search_jobs_params applyGeoArgs
    simp only [hloc]
    rw [if_neg hne, if_pos h75]
    refine ⟨rfl, ?_, ?_⟩ <;> split_ifs <;>
      simp [buildFilters_commune, buildFilters_distance]
  · intro h75
    unfold search_jobs_params applyGeoArgs
    simp only [hloc]
    rw [if_neg hne, if_neg h75]
    exact ⟨rfl, rfl⟩

/-- Witness for C4: Paris (`"75056"`) goes department-level, Lyon's commune
code goes commune + radius. -/
theorem location_rule_exact_witness :
    ((search_jobs_params { keywords := "dev", location := some "75056" }).departement
        = some "75" ∧
      (search_jobs_params { keywords := "dev", location := some "75056" }).commune = none ∧
      (search_jobs_params { keywords := "dev", location := some "75056" }).distance = none) ∧
    ((search_jobs_params { keywords := "dev", location := some "69123" }).commune
        = some "69123" ∧
      (search_jobs_params { keywords := "dev", location := some "69123" }).distance
        = some 25) :=
  ⟨(location_rule_exact { keywords := "dev", location := some "75056" } "75056" rfl
      (by decide)).1 (Or.inl rfl),
    (location_rule_exact { keywords := "dev", location := some "69123" } "69123" rfl
      (by decide)).2 (by decide)⟩

/-- Counterexample to C4 as stated: the location `"75001"` starts with `"75"`
but is sent as commune + radius, not as the department `"75"`; and the 2-digit
location `"69"` is likewise sent as a commune code, not a department code. -/
theorem location_prefix75_ce :
    (search_jobs_params { keywords := "dev", location := some "75001" }).commune
        = some "75001" ∧
    (search_jobs_params { keywords := "dev", location := some "75001" }).departement
        = none ∧
    (search_jobs_params { keywords := "dev", location := some "69" }).commune = some "69" ∧
    (search_jobs_params { keywords := "dev", location := some "69" }).departement = none := by
  decide

/-! ## Claim C7: location resolver -/

/-- C7: `_resolve_location` tries region → department → commune under the
`unknown` hint, stopping at the first non-empty candidate list and taking its
head; a specific hint consults the hinted lookup first (and only); a resolved
commune also returns its parent department code; and when nothing resolves it
returns the empty no-constraint result rather than raising. -/
theorem resolve_location_spec (regs deps cits : List GeoRecord) :
    (∀ r rs, regs = r :: rs →
      resolve_location regs deps cits "unknown" = ({ region := some r.code }, none) ∧
      resolve_location regs deps cits "region" = ({ region := some r.code }, none)) ∧
    (∀ dep ds, regs = [] → deps = dep :: ds →
      resolve_location regs deps cits "unknown" = ({ departement := some dep.code }, none)) ∧
    (∀ dep ds, deps = dep :: ds →
      resolve_location regs deps cits "departement" = ({ departement := some dep.code }, none)) ∧
    (∀ c cs, regs = [] → deps = [] → cits = c :: cs →
      resolve_location regs deps cits "unknown" = ({ location := some c.code }, c.departement)) ∧
    (∀ c cs, cits = c :: cs →
      resolve_location regs deps cits "commune" = ({ location := some c.code }, c.departement)) ∧
    (regs = [] → deps = [] → cits = [] →
      resolve_location regs deps cits "unknown" = ({}, none)) ∧
    (regs = [] → resolve_location regs deps cits "region" = ({}, none)) ∧
    (deps = [] → resolve_location regs deps cits "departement" = ({}, none)) ∧
    (cits = [] → resolve_location regs deps cits "commune" = ({}, none)) := by
  refine ⟨?_, ?_, ?_, ?_, ?_, ?_, ?_, ?_, ?_⟩
  · intro r rs h
    subst h
    exact ⟨rfl, rfl⟩
  · intro dep ds h1 h2
    subst h1
    subst h2
    rfl
  · intro dep ds h
    subst h
    rfl
  · intro c cs h1 h2 h3
    subst h1
    subst h2
    subst h3
    rfl
  · intro c cs h
    subst h
    rfl
  · intro h1 h2 h3
    subst h1
    subst h2
    subst h3
    rfl
  · intro h
    subst h
    rfl
  · intro h
    subst h
    rfl
  · intro h
    subst h
    rfl

/-- Witness for C7: Paris resolves as a commune with its parent department
captured; a region hint takes the top region. -/
theorem resolve_location_spec_witness :
    resolve_location [] [] [recParis] "unknown" = ({ location := some "75056" }, some "75") ∧
    resolve_location [recIdf] [recRhone] [] "region" = ({ region := some "11" }, none) :=
  ⟨(resolve_location_spec [] [] [recParis]).2.2.2.1 recParis [] rfl rfl rfl,
    ((resolve_location_spec [recIdf] [recRhone] []).1 recIdf [] rfl).2⟩

/-! ## Claim C8: planner fallback -/

/-- C8: when the DSPy reasoning call fails — it raises, or its output is so
malformed that even `len(variations)` raises — `predict_params` returns
exactly one fallback variation whose keywords are the user query and whose
every other field is null/unknown; no failure is propagated (the result is a
plain value in every case). -/
theorem predict_params_fallback (e q : String) (v : Variation) :
    predict_params (.error e) q = .list [.item (fallbackVariation q)] ∧
    predict_params (.ok (.item v)) q = .list [.item (fallbackVariation q)] ∧
    (fallbackVariation q).keywords = q ∧
    (fallbackVariation q).location_raw = none ∧
    (fallbackVariation q).location_type = "unknown" ∧
    (fallbackVariation q).experience_level = none ∧
    (fallbackVariation q).experience_exigence = none ∧
    (fallbackVariation q).contract_type = none ∧
    (fallbackVariation q).is_full_time = none :=
  ⟨rfl, rfl, rfl, rfl, rfl, rfl, rfl, rfl, rfl⟩

/-! ## Claim C9: flatten step -/

theorem flattenAux_items : ∀ (vs : List PyVal) (acc : List PyVal),
    (∀ v ∈ vs, flatListOfItems v = true) → (∀ x ∈ acc, x.isItem = true) →
    ∀ x ∈ vs.foldl (fun acc v =>
      match v with
      | .list inner => acc ++ inner
      | .item y => acc ++ [.item y]) acc, x.isItem = true := by
  intro vs
  induction vs with
  | nil => intro acc _ hacc x hx; exact hacc x hx
  | cons v vs ih =>
      intro acc hvs hacc x hx
      rw [List.foldl_cons] at hx
      cases v with
      | item y =>
          refine ih (acc ++ [.item y]) (fun w hw => hvs w (by simp [hw])) ?_ x hx
          intro w hw
          rcases List.mem_append.mp hw with h | h
          · exact hacc w h
          · simp at h
            subst h
            rfl
      | list inner =>
          have hflat : inner.all PyVal.isItem = true := hvs (.list inner) (by simp)
          refine ih (acc ++ inner) (fun w hw => hvs w (by simp [hw])) ?_ x hx
          intro w hw
          rcases List.mem_append.mp hw with h | h
          · exact hacc w h
          · exact List.all_eq_true.mp hflat w h

/-- C9 (amended): the flatten step unwraps exactly one level of nesting, so
the variation list is guaranteed flat only when the emitted value nests at
most two levels deep (a variation, or a list of variations and flat lists of
variations). -/
theorem flatten_depth_two_flat (raw : PyVal) (h : depthLE2 raw = true) :
    ∀ x ∈ flattenVariations raw, x.isItem = true := by
  cases raw with
  | item v =>
      intro x hx
      simp only [flattenVariations] at hx
      simp at hx
      subst hx
      rfl
  | list vs =>
      intro x hx
      simp only [flattenVariations] at hx
      exact flattenAux_items vs []
        (List.all_eq_true.mp (by simpa [depthLE2] using h)) (by simp) x hx

/-- Witness for C9: a depth-2 emitted value flattens to items only. -/
theorem flatten_depth_two_flat_witness :
    depthLE2 (.list [.item varPython, .list [.item varPython]]) = true ∧
    ∀ x ∈ flattenVariations (.list [.item varPython, .list [.item varPython]]),
      x.isItem = true :=
  ⟨by decide, flatten_depth_two_flat _ (by decide)⟩

/-- Counterexample to C9 as stated: a triply-nested emitted value leaves a
list element in the "flat" variation list the orchestrator iterates over. -/
theorem flatten_one_level_ce :
    flattenVariations (.list [.list [.list [.item varPython]]]) = [.list [.item varPython]] ∧
    PyVal.isList (.list [.item varPython]) = true :=
  ⟨rfl, rfl⟩

/-! ## Lemmas about the merge loop -/

theorem specDedupFirst_congr : ∀ (js : List Job) (s1 s2 : List String),
    (∀ x, x ∈ s1 ↔ x ∈ s2) → specDedupFirst js s1 = specDedupFirst js s2 := by
  intro js
  induction js with
  | nil => intro s1 s2 _; rfl
  | cons j rest ih =>
      intro s1 s2 h
      cases hid : j.id with
      | none =>
          simp only [specDedupFirst, hid]
          exact ih s1 s2 h
      | some s =>
          simp only [specDedupFirst, hid]
          by_cases hc : s ≠ "" ∧ s ∉ s1
          · rw [if_pos hc, if_pos ⟨hc.1, fun hm => hc.2 ((h s).mpr hm)⟩]
            rw [ih (s :: s1) (s :: s2) (fun x => by simp [h x])]
          · rw [if_neg hc, if_neg (fun hc2 => hc ⟨hc2.1, fun hm => hc2.2 ((h s).mp hm)⟩)]
            exact ih s1 s2 h

theorem foldl_merge_step : ∀ (js : List Job) (A : List Job) (S : List String),
    js.foldl merge_step (A, S) =
      (A ++ specDedupFirst js S, S ++ jobIds (specDedupFirst js S)) := by
  intro js
  induction js with
  | nil => intro A S; simp [specDedupFirst, jobIds]
  | cons j rest ih =>
      intro A S
      rw [List.foldl_cons]
      cases hid : j.id with
      | none =>
          have hstep : merge_step (A, S) j = (A, S) := by
            simp [merge_step, hid]
          rw [hstep, ih]
          simp only [specDedupFirst, hid]
      | some s =>
          by_cases hc : s ≠ "" ∧ s ∉ S
          · have hstep : merge_step (A, S) j = (A ++ [j], S ++ [s]) := by
              simp only [merge_step, hid]
              rw [if_pos hc]
            rw [hstep, ih]
            rw [specDedupFirst_congr rest (S ++ [s]) (s :: S)
              (fun x => by simp [or_comm])]
            simp only [specDedupFirst, hid, if_pos hc]
            simp [jobIds, List.filterMap_cons, hid, List.append_assoc]
          · have hstep : merge_step (A, S) j = (A, S) := by
              simp only [merge_step, hid]
              rw [if_neg hc]
            rw [hstep, ih]
            simp only [specDedupFirst, hid, if_neg hc]

theorem specDedupFirst_append : ∀ (xs ys : List Job) (S : List String),
    specDedupFirst (xs ++ ys) S =
      specDedupFirst xs S ++ specDedupFirst ys (S ++ jobIds (specDedupFirst xs S)) := by
  intro xs
  induction xs with
  | nil => intro ys S; simp [specDedupFirst, jobIds]
  | cons j xs ih =>
      intro ys S
      cases hid : j.id with
      | none =>
          simp only [List.cons_append, specDedupFirst, hid]
          exact ih ys S
      | some s =>
          simp only [List.cons_append, specDedupFirst, hid, List.append_eq]
          by_cases hc : s ≠ "" ∧ s ∉ S
          · rw [if_pos hc, if_pos hc]
            rw [ih ys (s :: S)]
            simp only [List.cons_append, List.cons.injEq, true_and]
            congr 1
            apply specDedupFirst_congr
            intro x
            simp [jobIds, List.filterMap_cons, hid]
            tauto
          · rw [if_neg hc, if_neg hc]
            exact ih ys S

theorem merge_results_foldl : ∀ (rs : List (Except String (List Job)))
    (A : List Job) (S : List String),
    rs.foldl mergeOuter (A, S) =
      (A ++ specDedupFirst (successStream rs) S,
        S ++ jobIds (specDedupFirst (successStream rs) S)) := by
  intro rs
  induction rs with
  | nil => intro A S; simp [successStream, specDedupFirst, jobIds]
  | cons r rs ih =>
      intro A S
      rw [List.foldl_cons]
      cases r with
      | error e =>
          have hstep : mergeOuter (A, S) (.error e) = (A, S) := rfl
          rw [hstep, ih]
          simp [successStream, List.filterMap_cons]
      | ok js =>
          have hstep : mergeOuter (A, S) (.ok js) = js.foldl merge_step (A, S) := rfl
          rw [hstep, foldl_merge_step, ih]
          have hstream : successStream (.ok js :: rs) = js ++ successStream rs := by
            simp [successStream, List.filterMap_cons]
          rw [hstream, specDedupFirst_append]
          simp [jobIds, List.filterMap_append, List.append_assoc]

theorem specDedupFirst_mem : ∀ (js : List Job) (S : List String) (j : Job),
    j ∈ specDedupFirst js S → ∃ s, j.id = some s ∧ s ≠ "" ∧ s ∉ S := by
  intro js
  induction js with
  | nil => intro S j h; simp [specDedupFirst] at h
  | cons x rest ih =>
      intro S j h
      cases hid : x.id with
      | none =>
          simp only [specDedupFirst, hid] at h
          exact ih S j h
      | some s =>
          simp only [specDedupFirst, hid] at h
          by_cases hc : s ≠ "" ∧ s ∉ S
          · rw [if_pos hc] at h
            rcases List.mem_cons.mp h with rfl | h2
            · exact ⟨s, hid, hc.1, hc.2⟩
            · obtain ⟨t, ht, htne, htni⟩ := ih (s :: S) j h2
              exact ⟨t, ht, htne, fun hm => htni (by simp [hm])⟩
          · rw [if_neg hc] at h
            exact ih S j h

theorem specDedupFirst_pairwise : ∀ (js : List Job) (S : List String),
    (specDedupFirst js S).Pairwise (fun a b => a.id ≠ b.id) := by
  intro js
  induction js with
  | nil => intro S; simp [specDedupFirst]
  | cons x rest ih =>
      intro S
      cases hid : x.id with
      | none =>
          simp only [specDedupFirst, hid]
          exact ih S
      | some s =>
          simp only [specDedupFirst, hid]
          by_cases hc : s ≠ "" ∧ s ∉ S
          · rw [if_pos hc]
            refine List.Pairwise.cons ?_ (ih (s :: S))
            intro b hb
            obtain ⟨t, ht, _, htni⟩ := specDedupFirst_mem rest (s :: S) b hb
            rw [hid, ht]
            intro he
            have hst : s = t := by injection he
            exact htni (hst ▸ List.mem_cons_self s S)
          · rw [if_neg hc]
            exact ih S

/-! ## Claim C5: merge deduplication -/

/-- C5: the merge loop walks the successful task results in submission order
and keeps exactly the first occurrence of each id (the spec's rule
`specDedupFirst`), so no two entries of the merged list share an id. -/
theorem merge_dedup_first_seen (rs : List (Except String (List Job))) :
    (merge_results rs).1 = specDedupFirst (successStream rs) [] ∧
    (merge_results rs).1.Pairwise (fun a b => a.id ≠ b.id) := by
  have h := merge_results_foldl rs [] []
  constructor
  · rw [merge_results, h]
    simp
  · rw [merge_results, h]
    simpa using specDedupFirst_pairwise (successStream rs) []

/-! ## Claim C10: id filter and fallback bypass -/

/-- C10: every posting kept by the merge loop has a present, non-empty id —
so a posting with a missing, `None`, or empty id is silently discarded no
matter which task produced it — while the national fallback's result list
bypasses the merge filter and is handed on as-is. -/
theorem merged_ids_truthy_fallback_bypass :
    (∀ (rs : List (Except String (List Job))) (j : Job), j ∈ (merge_results rs).1 →
      ∃ s, j.id = some s ∧ s ≠ "") ∧
    (∀ {d : ℕ} (o : SmartOracle d) (uq : String) (js : List Job),
      smartMerged o uq = [] →
      o.search (nationalArgs (fallbackKeywords (smartVariations o uq) uq)) = .ok js →
      smartFound o uq = some js) := by
  constructor
  · intro rs j hj
    rw [merge_results, merge_results_foldl rs [] []] at hj
    simp at hj
    obtain ⟨s, hid, hne, _⟩ := specDedupFirst_mem (successStream rs) [] j hj
    exact ⟨s, hid, hne⟩
  · intro d o uq js hm hs
    unfold smartFound
    rw [if_pos hm, hs]

/-- Witness for C10: a run where every task returns only an id-less posting —
the merge drops it, and the national fallback then returns it untouched. -/
theorem merged_ids_truthy_fallback_bypass_witness :
    smartMerged smartOracleNoId "Find jobs matching my profile" = [] ∧
    smartFound smartOracleNoId "Find jobs matching my profile" = some [jobNoId] :=
  ⟨by decide,
    merged_ids_truthy_fallback_bypass.2 smartOracleNoId "Find jobs matching my profile"
      [jobNoId] (by decide) rfl⟩

/-! ## Claim C6: national fallback -/

/-- C6: when the merged set is empty, exactly one further search is issued —
unconstrained (no commune, department, or region) and keyed by the first
variation's keywords, or by the raw user query when no variation exists — and
whether that fallback returns nothing or raises, `smart_search` returns the
empty list instead of an exception. -/
theorem national_fallback_once {d : ℕ} (o : SmartOracle d) (profile : String)
    (query : Option String) (applied : List String)
    (hm : smartMerged o (smartUserQuery query) = []) :
    smartIssuedSearches o (smartUserQuery query) =
      smartTasks o.geo (smartVariations o (smartUserQuery query)) ++
        [nationalArgs (fallbackKeywords (smartVariations o (smartUserQuery query))
          (smartUserQuery query))] ∧
    (nationalArgs (fallbackKeywords (smartVariations o (smartUserQuery query))
      (smartUserQuery query))).location = none ∧
    (nationalArgs (fallbackKeywords (smartVariations o (smartUserQuery query))
      (smartUserQuery query))).departement = none ∧
    (nationalArgs (fallbackKeywords (smartVariations o (smartUserQuery query))
      (smartUserQuery query))).region = none ∧
    (smartVariations o (smartUserQuery query) = [] →
      fallbackKeywords (smartVariations o (smartUserQuery query)) (smartUserQuery query) =
        smartUserQuery query) ∧
    (∀ p vs, smartVariations o (smartUserQuery query) = .item p :: vs →
      fallbackKeywords (smartVariations o (smartUserQuery query)) (smartUserQuery query) =
        p.keywords) ∧
    (o.search (nationalArgs (fallbackKeywords (smartVariations o (smartUserQuery query))
        (smartUserQuery query))) = .ok [] →
      smart_search o profile query applied = []) ∧
    (∀ e, o.search (nationalArgs (fallbackKeywords (smartVariations o (smartUserQuery query))
        (smartUserQuery query))) = .error e →
      smart_search o profile query applied = []) := by
  refine ⟨?_, rfl, rfl, rfl, ?_, ?_, ?_, ?_⟩
  · unfold smartIssuedSearches
    rw [if_pos hm]
  · intro hv
    rw [hv]
    rfl
  · intro p vs hv
    rw [hv]
    rfl
  · intro hok
    have hfound : smartFound o (smartUserQuery query) = some [] := by
      unfold smartFound
      rw [if_pos hm, hok]
    unfold smart_search
    rw [hfound]
    simp [ranking_nil, markApplied]
  · intro e herr
    have hfound : smartFound o (smartUserQuery query) = none := by
      unfold smartFound
      rw [if_pos hm, herr]
    unfold smart_search
    rw [hfound]

/-- Witness for C6: a run with no results anywhere issues the one national
search and returns the empty list. -/
theorem national_fallback_once_witness :
    smartMerged smartOracleEmpty (smartUserQuery none) = [] ∧
    smartIssuedSearches smartOracleEmpty (smartUserQuery none) =
      smartTasks smartOracleEmpty.geo (smartVariations smartOracleEmpty (smartUserQuery none)) ++
        [nationalArgs (fallbackKeywords (smartVariations smartOracleEmpty (smartUserQuery none))
          (smartUserQuery none))] ∧
    smart_search smartOracleEmpty "profile" none [] = [] :=
  ⟨by decide,
    (national_fallback_once smartOracleEmpty "profile" none [] (by decide)).1,
    (national_fallback_once smartOracleEmpty "profile" none [] (by decide)).2.2.2.2.2.2.1 rfl⟩

end Entervio
